import Mathlib

/-!
Verification of the whispy voice-assistant core against its specification.

The development shallow-embeds the three specified components:

* the speech normalizer `clean_for_speech` from `src/whispy/tts.py`
  (emoji deletion via the `_EMOJI_RE` character class, collapse of runs of
  two or more spaces via `re.sub(r"  +", " ", ...)`, and Python `str.strip`);
* the conversation-history manager and chat client `OllamaLLM` from
  `src/whispy/llm.py` (`__init__`, `chat`, `reset`, `_trim_history`),
  with Python list slicing embedded faithfully, including the behaviour of a
  `[-0:]` slice, and the external completion service passed in as a function
  returning either a reply or a raised exception's message;
* the per-iteration capture policy of the turn loop in `src/whispy/app.py`
  (`run`), with the float duration `audio.size / config.sample_rate` modelled
  as an exact rational.
-/

namespace Whispy

/-! ## Speech normalizer (`src/whispy/tts.py`) -/

/-- Character class of `_EMOJI_RE` in `tts.py`: each alternative below is one
range (or single code point) listed in the regex. -/
def isEmojiChar (c : Char) : Bool :=
  (0x1F600 ≤ c.val && c.val ≤ 0x1F64F) ||   -- emoticons
  (0x1F300 ≤ c.val && c.val ≤ 0x1F5FF) ||   -- symbols & pictographs
  (0x1F680 ≤ c.val && c.val ≤ 0x1F6FF) ||   -- transport & map symbols
  (0x1F900 ≤ c.val && c.val ≤ 0x1F9FF) ||   -- supplemental symbols
  (0x1FA00 ≤ c.val && c.val ≤ 0x1FA6F) ||   -- chess symbols, extended-A
  (0x1FA70 ≤ c.val && c.val ≤ 0x1FAFF) ||   -- symbols extended-A
  (0x2702 ≤ c.val && c.val ≤ 0x27B0) ||     -- dingbats
  (0x1F1E0 ≤ c.val && c.val ≤ 0x1F1FF) ||   -- flags
  (c.val = 0x200d) ||                       -- zero-width joiner
  (c.val = 0xfe0f) ||                       -- variation selector-16
  (0x2600 ≤ c.val && c.val ≤ 0x26FF) ||     -- misc symbols
  (0x2700 ≤ c.val && c.val ≤ 0x27BF)        -- dingbats

/-- Embedding of `_EMOJI_RE.sub("", text)`: the regex is a bare character
class (one or more characters from the class), so substituting the empty
string deletes exactly the characters in the class. -/
def removeEmoji (l : List Char) : List Char :=
  l.filter (fun c => !isEmojiChar c)

/-- Embedding of `re.sub(r"  +", " ", text)`: each maximal run of two or
more spaces is replaced by a single space (single spaces are untouched), so
whenever two adjacent spaces remain the first is dropped. -/
def collapseSpaces : List Char → List Char
  | [] => []
  | [c] => [c]
  | c1 :: c2 :: rest =>
    if c1 = ' ' ∧ c2 = ' ' then collapseSpaces (c2 :: rest)
    else c1 :: collapseSpaces (c2 :: rest)

/-- Whitespace as recognised by Python `str.strip()` (the code points Python
treats as whitespace). -/
def isPyWS (c : Char) : Bool :=
  (9 ≤ c.val && c.val ≤ 13) || (c.val = 32) ||
  (28 ≤ c.val && c.val ≤ 31) || (c.val = 0x85) || (c.val = 0xa0) ||
  (c.val = 0x1680) || (0x2000 ≤ c.val && c.val ≤ 0x200a) ||
  (c.val = 0x2028) || (c.val = 0x2029) || (c.val = 0x202f) ||
  (c.val = 0x205f) || (c.val = 0x3000)

/-- Embedding of Python `text.strip()`: remove leading and trailing
whitespace. -/
def pyStrip (l : List Char) : List Char :=
  List.rdropWhile isPyWS (List.dropWhile isPyWS l)

/-- `clean_for_speech` from `tts.py`, on character lists: emoji substitution,
then collapse of space runs, then strip. -/
def cleanForSpeechL (l : List Char) : List Char :=
  pyStrip (collapseSpaces (removeEmoji l))

/-- `clean_for_speech` from `tts.py` on strings. -/
def clean_for_speech (s : String) : String :=
  String.mk (cleanForSpeechL s.data)

/-- Auxiliary predicate for reasoning about `collapseSpaces`: no two adjacent
characters of the list are both spaces. -/
def noDoubleSpace (l : List Char) : Prop :=
  List.Chain' (fun a b => ¬(a = ' ' ∧ b = ' ')) l

/-! ## Conversation history and chat client (`src/whispy/llm.py`) -/

/-- Message roles used by `OllamaLLM`. -/
inductive Role
  | system
  | user
  | assistant
  deriving DecidableEq

/-- One entry of `self._history`: a `{"role": ..., "content": ...}` dict. -/
structure ChatMessage where
  role : Role
  content : String
  deriving DecidableEq

/-- State of an `OllamaLLM` instance: constructor arguments plus
`self._history`. -/
structure OllamaLLM where
  model : String
  system_prompt : String
  max_history : Nat
  history : List ChatMessage
  deriving DecidableEq

/-- Python `l[i:]` for an integer `i`: negative `i` counts from the end
(clamped at the start), and `l[0:]`, including the `-0` case, is `l`. -/
def pySliceFrom (i : Int) (l : List α) : List α :=
  if i < 0 then l.drop (l.length - i.natAbs) else l.drop i.toNat

/-- `OllamaLLM.__init__`: `self._history` starts empty and is seeded with a
system message when `system_prompt` is truthy (non-empty). -/
def OllamaLLM.init (model system_prompt : String) (max_history : Nat) : OllamaLLM :=
  { model := model
    system_prompt := system_prompt
    max_history := max_history
    history :=
      if system_prompt ≠ "" then [{ role := Role.system, content := system_prompt }] else [] }

/-- `OllamaLLM._trim_history`: return early when within the limit; otherwise,
when the head of the history is a system message keep it and take
`self._history[-(self.max_history - 1):]`, else take
`self._history[-self.max_history:]`.  The slice argument is computed in `Int`
exactly as Python computes it, so `max_history = 1` yields the slice `[-0:]`,
which is the whole list. -/
def OllamaLLM.trim_history (st : OllamaLLM) : OllamaLLM :=
  if st.history.length ≤ st.max_history then st
  else
    match st.history with
    | [] => { st with history := pySliceFrom (-(st.max_history : Int)) st.history }
    | first :: _ =>
      if first.role = Role.system then
        { st with
            history := first :: pySliceFrom (-((st.max_history : Int) - 1)) st.history }
      else
        { st with history := pySliceFrom (-(st.max_history : Int)) st.history }

/-- Fixed message of the `RuntimeError` raised by `chat` when the failure
looks like a connection problem. -/
def cannotConnectMessage : String :=
  "Cannot connect to Ollama. Is it running?\n  Start it with: ollama serve"

/-- ASCII fragment of Python `str.lower`, sufficient for the `"connection"`
substring test performed by `chat`. -/
def pyLowerChar (c : Char) : Char :=
  if 'A' ≤ c ∧ c ≤ 'Z' then Char.ofNat (c.toNat + 32) else c

/-- The test `"connection" in str(e).lower()` from `chat`. -/
def mentionsConnection (msg : String) : Bool :=
  decide ("connection".data <:+: msg.data.map pyLowerChar)

/-- Error signalled by `chat`: either the specific "cannot connect" runtime
error, or the original exception re-raised. -/
inductive ChatError
  | cannotConnect (message : String)
  | raised (message : String)
  deriving DecidableEq

/-- `OllamaLLM.chat`: append the user message, trim, call the external
completion service on the current history; on failure pop the last history
entry and raise (the connection-specific error when the exception message
mentions "connection", the original exception otherwise); on success append
the assistant reply and trim.  The external `ollama_client.chat` call is
passed in as `service`, returning the reply content or the raised
exception's message. -/
def OllamaLLM.chat (st : OllamaLLM) (message : String)
    (service : List ChatMessage → Except String String) :
    Except ChatError String × OllamaLLM :=
  let st1 := OllamaLLM.trim_history
    { st with history := st.history ++ [{ role := Role.user, content := message }] }
  match service st1.history with
  | Except.error e =>
    let st2 := { st1 with history := st1.history.dropLast }
    if mentionsConnection e then
      (Except.error (ChatError.cannotConnect cannotConnectMessage), st2)
    else
      (Except.error (ChatError.raised e), st2)
  | Except.ok reply =>
    let st2 := OllamaLLM.trim_history
      { st1 with history := st1.history ++ [{ role := Role.assistant, content := reply }] }
    (Except.ok reply, st2)

/-- `OllamaLLM.reset`: clear the history and re-seed the system message when
`system_prompt` is truthy. -/
def OllamaLLM.reset (st : OllamaLLM) : OllamaLLM :=
  { st with
      history :=
        if st.system_prompt ≠ "" then
          [{ role := Role.system, content := st.system_prompt }]
        else [] }

/-- A sequence of chat turns: each turn supplies the user message and the
outcome of the external completion-service call for that turn. -/
def runTurns (st : OllamaLLM) (turns : List (String × Except String String)) : OllamaLLM :=
  turns.foldl (fun s t => (OllamaLLM.chat s t.1 (fun _ => t.2)).2) st

/-! ## Turn-loop capture policy (`src/whispy/app.py`, `run`) -/

/-- What one iteration of the conversation loop does with a stopped capture,
before any transcription: skip on zero samples, skip on short duration,
otherwise invoke `stt.transcribe`.  The skip branches are the two `continue`
statements returning the loop to its idle wait. -/
inductive TurnAction
  | noAudio
  | tooShort
  | transcribe
  deriving DecidableEq

/-- Capture policy of `run`: `audio.size == 0` causes "(no audio captured)";
otherwise `duration = audio.size / config.sample_rate` below `0.3` causes
"(too short, skipped)"; otherwise transcription proceeds.  The Python float
division is modelled as exact rational division. -/
def captureDecision (size sampleRate : Nat) : TurnAction :=
  if size = 0 then TurnAction.noAudio
  else if (size : ℚ) / (sampleRate : ℚ) < 3 / 10 then TurnAction.tooShort
  else TurnAction.transcribe

/-! ## Lemmas about the speech normalizer -/

theorem collapseSpaces_sublist (l : List Char) : List.Sublist (collapseSpaces l) l := by
  induction l using collapseSpaces.induct with
  | case1 => exact List.Sublist.refl _
  | case2 c => exact List.Sublist.refl _
  | case3 c1 c2 rest h ih =>
    rw [collapseSpaces, if_pos h]
    exact ih.trans (List.sublist_cons_self c1 (c2 :: rest))
  | case4 c1 c2 rest h ih =>
    rw [collapseSpaces, if_neg h]
    exact ih.cons₂ c1

theorem collapseSpaces_head? (l : List Char) : (collapseSpaces l).head? = l.head? := by
  induction l using collapseSpaces.induct with
  | case1 => rfl
  | case2 c => rfl
  | case3 c1 c2 rest h ih =>
    rw [collapseSpaces, if_pos h, ih]
    simp [h.1, h.2]
  | case4 c1 c2 rest h ih =>
    rw [collapseSpaces, if_neg h]
    rfl

theorem collapseSpaces_noDouble (l : List Char) : noDoubleSpace (collapseSpaces l) := by
  induction l using collapseSpaces.induct with
  | case1 => exact List.chain'_nil
  | case2 c => exact List.chain'_singleton c
  | case3 c1 c2 rest h ih =>
    rw [collapseSpaces, if_pos h]
    exact ih
  | case4 c1 c2 rest h ih =>
    rw [collapseSpaces, if_neg h]
    refine List.chain'_cons'.mpr ⟨?_, ih⟩
    intro y hy
    rw [collapseSpaces_head?] at hy
    simp only [List.head?_cons, Option.mem_def, Option.some.injEq] at hy
    subst hy
    exact h

theorem collapseSpaces_eq_self (l : List Char) (h : noDoubleSpace l) :
    collapseSpaces l = l := by
  induction l using collapseSpaces.induct with
  | case1 => rfl
  | case2 c => rfl
  | case3 c1 c2 rest hc ih =>
    exact absurd hc (List.chain'_cons.mp h).1
  | case4 c1 c2 rest hc ih =>
    rw [collapseSpaces, if_neg hc, ih (List.chain'_cons.mp h).2]

theorem pyStrip_infix_self (l : List Char) : pyStrip l <:+: l := by
  obtain ⟨t, ht⟩ := List.rdropWhile_prefix isPyWS (List.dropWhile isPyWS l)
  obtain ⟨s, hs⟩ := (List.dropWhile_suffix isPyWS : List.dropWhile isPyWS l <:+ l)
  refine ⟨s, t, ?_⟩
  unfold pyStrip
  rw [List.append_assoc, ht, hs]

theorem pyStrip_sublist (l : List Char) : List.Sublist (pyStrip l) l :=
  (pyStrip_infix_self l).sublist

theorem dropWhile_eq_cons_imp {p : Char → Bool} :
    ∀ {l c rest}, List.dropWhile p l = c :: rest → p c = false := by
  intro l
  induction l with
  | nil => intro c rest h; simp [List.dropWhile] at h
  | cons a as ih =>
    intro c rest h
    rw [List.dropWhile_cons] at h
    by_cases ha : p a
    · rw [if_pos ha] at h
      exact ih h
    · rw [if_neg ha] at h
      cases h
      simpa using ha

theorem dropWhile_eq_self_of_isPrefix_dropWhile {p : Char → Bool} {b l : List Char}
    (h : b <+: List.dropWhile p l) : List.dropWhile p b = b := by
  cases b with
  | nil => rfl
  | cons c cs =>
    obtain ⟨t, ht⟩ := h
    have hd : List.dropWhile p l = c :: (cs ++ t) := by rw [← ht]; rfl
    have hc : p c = false := dropWhile_eq_cons_imp hd
    simp [List.dropWhile_cons, hc]

theorem pyStrip_idem (l : List Char) : pyStrip (pyStrip l) = pyStrip l := by
  unfold pyStrip
  rw [dropWhile_eq_self_of_isPrefix_dropWhile
      (List.rdropWhile_prefix isPyWS (List.dropWhile isPyWS l)),
    List.rdropWhile_idempotent]

theorem cleanForSpeechL_no_emoji (l : List Char) (c : Char)
    (hc : c ∈ cleanForSpeechL l) : isEmojiChar c = false := by
  unfold cleanForSpeechL at hc
  have h1 : c ∈ collapseSpaces (removeEmoji l) := (pyStrip_sublist _).subset hc
  have h2 : c ∈ removeEmoji l := (collapseSpaces_sublist _).subset h1
  unfold removeEmoji at h2
  have h3 := List.of_mem_filter h2
  simpa using h3

theorem removeEmoji_cleanForSpeechL (l : List Char) :
    removeEmoji (cleanForSpeechL l) = cleanForSpeechL l := by
  unfold removeEmoji
  rw [List.filter_eq_self]
  intro a ha
  simp [cleanForSpeechL_no_emoji l a ha]

theorem collapseSpaces_cleanForSpeechL (l : List Char) :
    collapseSpaces (cleanForSpeechL l) = cleanForSpeechL l := by
  apply collapseSpaces_eq_self
  exact List.Chain'.infix (collapseSpaces_noDouble (removeEmoji l)) (pyStrip_infix_self _)

theorem cleanForSpeechL_idem (l : List Char) :
    cleanForSpeechL (cleanForSpeechL l) = cleanForSpeechL l := by
  show pyStrip (collapseSpaces (removeEmoji (cleanForSpeechL l))) = cleanForSpeechL l
  rw [removeEmoji_cleanForSpeechL, collapseSpaces_cleanForSpeechL]
  exact pyStrip_idem (collapseSpaces (removeEmoji l))

/-! ## Lemmas about the chat client state -/

theorem trim_history_preserves (st : OllamaLLM) :
    (OllamaLLM.trim_history st).model = st.model ∧
    (OllamaLLM.trim_history st).system_prompt = st.system_prompt ∧
    (OllamaLLM.trim_history st).max_history = st.max_history := by
  unfold OllamaLLM.trim_history
  split
  · exact ⟨rfl, rfl, rfl⟩
  · split
    · exact ⟨rfl, rfl, rfl⟩
    · split <;> exact ⟨rfl, rfl, rfl⟩

theorem chat_preserves (st : OllamaLLM) (m : String)
    (f : List ChatMessage → Except String String) :
    (OllamaLLM.chat st m f).2.model = st.model ∧
    (OllamaLLM.chat st m f).2.system_prompt = st.system_prompt ∧
    (OllamaLLM.chat st m f).2.max_history = st.max_history := by
  have h1 := trim_history_preserves
    { st with history := st.history ++ [{ role := Role.user, content := m }] }
  simp only [OllamaLLM.chat]
  split
  · split
    · exact ⟨h1.1, h1.2.1, h1.2.2⟩
    · exact ⟨h1.1, h1.2.1, h1.2.2⟩
  · exact ⟨(trim_history_preserves _).1.trans h1.1,
      (trim_history_preserves _).2.1.trans h1.2.1,
      (trim_history_preserves _).2.2.trans h1.2.2⟩

theorem runTurns_preserves (turns : List (String × Except String String))
    (st : OllamaLLM) :
    (runTurns st turns).model = st.model ∧
    (runTurns st turns).system_prompt = st.system_prompt ∧
    (runTurns st turns).max_history = st.max_history := by
  induction turns generalizing st with
  | nil => exact ⟨rfl, rfl, rfl⟩
  | cons t ts ih =>
    have h := chat_preserves st t.1 (fun _ => t.2)
    have h2 := ih ((OllamaLLM.chat st t.1 (fun _ => t.2)).2)
    exact ⟨h2.1.trans h.1, h2.2.1.trans h.2.1, h2.2.2.trans h.2.2⟩

/-! ## Claim theorems -/

/-- C1: the claimed invariant — history length never exceeds `max_history`
(for any capacity ≥ 1) with at most one system message — is violated by the
code.  With `max_history = 1` and a seeded system prompt, `_trim_history`
computes the slice `self._history[-(1 - 1):]`, i.e. `[-0:]`, which is the
whole list, so trimming prepends a second copy of the system message instead
of shrinking.  After one successful `chat` turn the history has length 5 and
three system messages, violating the claimed bound `≤ 1` and uniqueness of
the system message. -/
theorem trim_overflow_capacity_one :
    ((OllamaLLM.init "m" "S" 1).chat "u" (fun _ => Except.ok "r")).2.history.length = 5 ∧
    ((OllamaLLM.init "m" "S" 1).chat "u" (fun _ => Except.ok "r")).2.history.countP
      (fun msg => decide (msg.role = Role.system)) = 3 := by
  decide

/-- C2 (counterexample): rollback does not restore the pre-call history in
general.  Starting from capacity 2 with no system prompt and a full history
of two messages (reached by one successful turn), a failed `chat` first
appends the user message, then trims away the oldest message, and on failure
pops only the user message — leaving a history of length 1 instead of the
pre-call length 2. -/
theorem chat_rollback_counterexample :
    ((((OllamaLLM.init "m" "" 2).chat "a" (fun _ => Except.ok "b")).2.chat "c"
        (fun _ => Except.error "boom")).2.history ≠
      ((OllamaLLM.init "m" "" 2).chat "a" (fun _ => Except.ok "b")).2.history) ∧
    ((OllamaLLM.init "m" "" 2).chat "a" (fun _ => Except.ok "b")).2.history.length = 2 ∧
    ((((OllamaLLM.init "m" "" 2).chat "a" (fun _ => Except.ok "b")).2.chat "c"
        (fun _ => Except.error "boom")).2.history.length = 1) := by
  decide

/-- C2 (amended): rollback atomicity holds whenever the pre-call history is
strictly below capacity (so the trim after appending the user message drops
nothing).  Then a failed completion-service call leaves the history exactly
equal to the pre-call history, and `chat` signals an error. -/
theorem chat_failure_restores_history (st : OllamaLLM) (message e : String)
    (h : st.history.length < st.max_history) :
    (∃ err, (OllamaLLM.chat st message (fun _ => Except.error e)).1 = Except.error err) ∧
    (OllamaLLM.chat st message (fun _ => Except.error e)).2.history = st.history := by
  have hlen : ({ st with history := st.history ++ [{ role := Role.user, content := message }] } :
      OllamaLLM).history.length ≤
      ({ st with history := st.history ++ [{ role := Role.user, content := message }] } :
      OllamaLLM).max_history := by
    simp only [List.length_append, List.length_cons, List.length_nil]
    omega
  have htrim : OllamaLLM.trim_history
      { st with history := st.history ++ [{ role := Role.user, content := message }] } =
      { st with history := st.history ++ [{ role := Role.user, content := message }] } := by
    unfold OllamaLLM.trim_history
    rw [if_pos hlen]
  constructor
  · by_cases hc : mentionsConnection e = true
    · exact ⟨ChatError.cannotConnect cannotConnectMessage, by simp [OllamaLLM.chat, htrim, hc]⟩
    · exact ⟨ChatError.raised e, by simp [OllamaLLM.chat, htrim, hc]⟩
  · by_cases hc : mentionsConnection e = true <;>
      simp [OllamaLLM.chat, htrim, hc]

/-- C2 (witness): the amended rollback theorem applied at a concrete state
below capacity. -/
theorem chat_failure_restores_history_witness :
    (OllamaLLM.chat (OllamaLLM.init "m" "" 2) "x" (fun _ => Except.error "err")).2.history =
      (OllamaLLM.init "m" "" 2).history :=
  (chat_failure_restores_history (OllamaLLM.init "m" "" 2) "x" "err" (by decide)).2

/-- C3: the claimed list conversion does not happen.  `clean_for_speech` only
removes emoji and collapses double spaces, so the spec's own example input is
returned verbatim: the marker `"1."` is still an infix of the output and no
terminating periods are added (the repository's test
`test_numbered_list_gets_periods` fails on this code). -/
theorem clean_for_speech_list_markers_unchanged :
    clean_for_speech "1. The sky is blue\n2. Grass is green" =
      "1. The sky is blue\n2. Grass is green" ∧
    "1.".data <:+: (clean_for_speech "1. The sky is blue\n2. Grass is green").data := by
  constructor
  · decide
  · decide

/-- C4: the claimed markdown-marker removal does not happen.
`clean_for_speech` touches neither `*` nor `#`, so emphasis markers survive:
`"**"` is still an infix of the output (the repository's test
`test_markdown_bold_removed` fails on this code). -/
theorem clean_for_speech_markdown_unchanged :
    clean_for_speech "This is **important** stuff" = "This is **important** stuff" ∧
    "**".data <:+: (clean_for_speech "This is **important** stuff").data ∧
    clean_for_speech "### My Header\nSome content" = "### My Header\nSome content" := by
  refine ⟨?_, ?_, ?_⟩
  · decide
  · decide
  · decide

/-- C5: identity on plain prose.  For any emoji-free string (in particular
one that also has no markdown markers and no list structure, neither of which
`clean_for_speech` inspects), the output is exactly the input with runs of
two or more spaces collapsed to one and leading/trailing whitespace stripped;
a whitespace-only input yields the empty string. -/
theorem clean_for_speech_plain_identity (s : String)
    (h : ∀ c ∈ s.data, isEmojiChar c = false) :
    clean_for_speech s = String.mk (pyStrip (collapseSpaces s.data)) ∧
    ((∀ c ∈ s.data, isPyWS c = true) → clean_for_speech s = "") := by
  have hre : removeEmoji s.data = s.data := by
    unfold removeEmoji
    rw [List.filter_eq_self]
    intro a ha
    simp [h a ha]
  constructor
  · unfold clean_for_speech cleanForSpeechL
    rw [hre]
  · intro hws
    unfold clean_for_speech cleanForSpeechL
    rw [hre]
    have hcol : ∀ c ∈ collapseSpaces s.data, isPyWS c = true := fun c hc =>
      hws c ((collapseSpaces_sublist s.data).subset hc)
    have hdw : List.dropWhile isPyWS (collapseSpaces s.data) = [] := by
      rw [List.dropWhile_eq_nil_iff]
      exact hcol
    unfold pyStrip
    rw [hdw]
    rfl

/-- C5 (witness): the identity law applied to a concrete plain-prose string
with extra spaces and surrounding whitespace. -/
theorem clean_for_speech_plain_identity_witness :
    clean_for_speech " The sky  is blue " =
      String.mk (pyStrip (collapseSpaces (" The sky  is blue ").data)) :=
  (clean_for_speech_plain_identity " The sky  is blue " (by decide)).1

/-- C6: emoji removal.  Every character of the output of `clean_for_speech`
is outside the `_EMOJI_RE` ranges (removal is deletion: the output is a
sublist of the input), and the spec's example holds:
`clean_for_speech "Hello! 😊🌟" = "Hello!"`. -/
theorem clean_for_speech_removes_emoji :
    (∀ s : String, ∀ c ∈ (clean_for_speech s).data, isEmojiChar c = false) ∧
    clean_for_speech "Hello! 😊🌟" = "Hello!" := by
  constructor
  · intro s c hc
    exact cleanForSpeechL_no_emoji s.data c hc
  · decide

/-- C7: error distinction.  Whenever the completion-service call fails (the
collaborator returns a raised exception's message `e`), `chat` signals an
error; the error is the connection-specific `RuntimeError` exactly when the
lowercased exception message contains `"connection"` (which is how a
connection refusal surfaces), and the original exception otherwise, so the
caller can present a differentiated message. -/
theorem chat_error_distinction (st : OllamaLLM) (message e : String) :
    ∃ err, (OllamaLLM.chat st message (fun _ => Except.error e)).1 = Except.error err ∧
      (mentionsConnection e = true → err = ChatError.cannotConnect cannotConnectMessage) ∧
      (mentionsConnection e = false → err = ChatError.raised e) := by
  by_cases hc : mentionsConnection e = true
  · exact ⟨ChatError.cannotConnect cannotConnectMessage, by simp [OllamaLLM.chat, hc],
      fun _ => rfl, fun hf => absurd hc (by simp [hf])⟩
  · exact ⟨ChatError.raised e, by simp [OllamaLLM.chat, hc],
      fun ht => absurd ht hc, fun _ => rfl⟩

/-- C8: reset restores the seeded state.  After any sequence of chat turns
(each with an arbitrary service outcome, successful or failed), `reset`
yields exactly the state produced by initialization: the single system
message when a system prompt was configured, the empty history otherwise. -/
theorem reset_restores_seeded_state (model sp : String) (mh : Nat)
    (turns : List (String × Except String String)) :
    OllamaLLM.reset (runTurns (OllamaLLM.init model sp mh) turns) =
      OllamaLLM.init model sp mh := by
  obtain ⟨hm, hs, hh⟩ := runTurns_preserves turns (OllamaLLM.init model sp mh)
  cases hE : runTurns (OllamaLLM.init model sp mh) turns with
  | mk m' s' c' hist' =>
    rw [hE] at hm hs hh
    simp only [OllamaLLM.init] at hm hs hh
    subst hm
    subst hs
    subst hh
    simp [OllamaLLM.reset, OllamaLLM.init]

/-- C9: sub-threshold capture never transcribes.  If the capture has zero
samples or its duration (samples divided by sample rate, as an exact
rational) is below 0.3 seconds, the loop iteration takes one of the two skip
branches and never reaches `stt.transcribe`. -/
theorem short_capture_never_transcribes (size rate : Nat)
    (h : size = 0 ∨ (size : ℚ) / (rate : ℚ) < 3 / 10) :
    captureDecision size rate ≠ TurnAction.transcribe := by
  unfold captureDecision
  rcases h with h0 | hdur
  · simp [h0]
  · by_cases h0 : size = 0
    · simp [h0]
    · rw [if_neg h0, if_pos hdur]
      intro hcontra
      cases hcontra

/-- C9 (witness): the capture policy applied at a zero-sample capture. -/
theorem short_capture_never_transcribes_witness :
    captureDecision 0 16000 ≠ TurnAction.transcribe :=
  short_capture_never_transcribes 0 16000 (Or.inl rfl)

/-- C10: normalization is idempotent — applying `clean_for_speech` to
already-normalized text changes nothing. -/
theorem clean_for_speech_idempotent (s : String) :
    clean_for_speech (clean_for_speech s) = clean_for_speech s := by
  unfold clean_for_speech
  exact congrArg String.mk (cleanForSpeechL_idem s.data)

end Whispy
